import Mathlib

/-!
Shallow embedding of `src/kernel/patch/common/kstorage.c`, an RCU-protected
multi-group key-value store built from sorted-array copy-on-write snapshots.
The mutable globals become an explicit state record threaded through every
operation; kernel allocations and cross-domain copies may fail, which is
modelled by explicit Boolean oracles passed to each call; a `none` result
marks undefined behaviour (a NULL or out-of-bounds dereference).  Locking and
RCU grace periods serialize the C code; the sequential model below describes
the resulting per-operation state transitions.
-/

/-- Error numbers from `linux/errno.h` used by the C file. -/
def ENOENT : Int := 2

/-- Error number for failed allocations. -/
def ENOMEM : Int := 12

/-- Error number for invalid arguments. -/
def EINVAL : Int := 22

/-- Error number for faulting user copies. -/
def EFAULT : Int := 14

/-- The `#define KSTRORAGE_MAX_GROUP_NUM 4` capacity (typo kept from the
source). -/
def KSTRORAGE_MAX_GROUP_NUM : Int := 4

/-- `struct kstorage`: one published record.  The flexible array member
`data[]` always holds exactly `dlen` bytes, so `dlen` is represented as the
length of `data`. -/
structure Kstorage where
  gid : Int
  did : Int
  data : List Nat
deriving DecidableEq, Repr

/-- The `dlen` field of `struct kstorage`. -/
def Kstorage.dlen (k : Kstorage) : Int := (k.data.length : Int)

/-- `struct ks_group_snapshot`: an immutable ordered pointer array.  The C
`size` field always equals the length of the `items` array. -/
structure KsGroupSnapshot where
  items : List Kstorage
deriving DecidableEq, Repr

/-- The `size` field of `struct ks_group_snapshot`. -/
def KsGroupSnapshot.size (s : KsGroupSnapshot) : Int := (s.items.length : Int)

/-- The mutable globals of the C file: `used_max_group` and the fixed array
`groups[KSTRORAGE_MAX_GROUP_NUM]`.  Each slot carries the RCU-published
snapshot pointer; `none` is the NULL of a never-allocated group. -/
structure KsState where
  used_max_group : Int
  groups : List (Option KsGroupSnapshot)
deriving DecidableEq, Repr

/-- `kstorage_init`: every snapshot pointer NULL and the counter at `-1`. -/
def kstorage_init : KsState := ⟨-1, [none, none, none, none]⟩

/-- The loop of `ks_bsearch`.  `fuel` bounds the number of iterations (the C
loop terminates because `hi - lo` shrinks each round; `size + 1` iterations
always suffice and `ks_bsearch` below supplies that many).  A read through an
out-of-range index yields the dummy id `0`; on the in-bounds ranges the
callers use this never happens. -/
def ks_bsearch_go (items : List Kstorage) (did : Int) : Nat → Int → Int → Int
  | 0, lo, _ => -(lo + 1)
  | fuel + 1, lo, hi =>
    if lo ≤ hi then
      let mid := lo + (hi - lo) / 2
      let mdid := ((items.get? mid.toNat).map Kstorage.did).getD 0
      if mdid = did then mid
      else if mdid < did then ks_bsearch_go items did fuel (mid + 1) hi
      else ks_bsearch_go items did fuel lo (mid - 1)
    else -(lo + 1)

/-- `ks_bsearch`: binary search of a snapshot for `did`; a hit returns the
exact index, a miss the negative encoding `-(insertion_point + 1)`. -/
def ks_bsearch (s : KsGroupSnapshot) (did : Int) : Int :=
  ks_bsearch_go s.items did (s.items.length + 1) 0 ((s.items.length : Int) - 1)

/-- `ks_make_item`: build a record carrying `len` bytes copied from
`data + offset`.  `Except.error` carries the `ERR_PTR` code; `none` models
the undefined behaviour of `memcpy` reading outside the kernel source buffer
(a faulting user copy returns `-EFAULT` instead).  The `alloc_ok` oracle
decides the `kvmalloc`, `copy_ok` the `copy_from_user`. -/
def ks_make_item (gid did : Int) (data : List Nat) (offset len : Int)
    (from_user alloc_ok copy_ok : Bool) : Option (Except Int Kstorage) :=
  if len < 0 then some (Except.error (-EINVAL))
  else if !alloc_ok then some (Except.error (-ENOMEM))
  else if len = 0 then some (Except.ok ⟨gid, did, []⟩)
  else if from_user then
    if copy_ok ∧ 0 ≤ offset ∧ offset + len ≤ (data.length : Int) then
      some (Except.ok ⟨gid, did, (data.drop offset.toNat).take len.toNat⟩)
    else some (Except.error (-EFAULT))
  else
    if 0 ≤ offset ∧ offset + len ≤ (data.length : Int) then
      some (Except.ok ⟨gid, did, (data.drop offset.toNat).take len.toNat⟩)
    else none

/-- `try_alloc_kstroage_group` (typo kept from the source): pre-increment
`used_max_group`, bounds-check the new id, publish an empty snapshot.
`alloc_ok` decides the `kzalloc` of the empty snapshot; its failure
decrements the counter back, so the state is returned unchanged there. -/
def try_alloc_kstroage_group (alloc_ok : Bool) (st : KsState) : Int × KsState :=
  if st.used_max_group + 1 < 0 ∨
      KSTRORAGE_MAX_GROUP_NUM ≤ st.used_max_group + 1 then
    (-1, { st with used_max_group := st.used_max_group + 1 })
  else if !alloc_ok then
    (-ENOMEM, st)
  else
    (st.used_max_group + 1,
      { st with used_max_group := st.used_max_group + 1,
                groups := st.groups.set (st.used_max_group + 1).toNat
                  (some ⟨[]⟩) })

/-- `kstorage_group_size`: out-of-range ids fail; an in-range group reports
its snapshot size, with NULL (never allocated) read as `0`. -/
def kstorage_group_size (gid : Int) (st : KsState) : Int :=
  if gid < 0 ∨ KSTRORAGE_MAX_GROUP_NUM ≤ gid then -ENOENT
  else
    match st.groups.getD gid.toNat none with
    | some s => s.size
    | none => 0

/-- `write_kstorage`: copy-on-write upsert.  `item_ok` and `clone_ok` are the
allocation oracles for `ks_make_item` and `ks_clone_snapshot`, `copy_ok` the
user-copy oracle.  The clone-and-adjust of the C code is written directly as
the resulting item list.  `none` models the crash of the insert branch, which
reads `old->size` through the NULL snapshot pointer of a never-allocated
group. -/
def write_kstorage (gid did : Int) (data : List Nat) (offset len : Int)
    (data_is_user item_ok clone_ok copy_ok : Bool) (st : KsState) :
    Option (Int × KsState) :=
  if gid < 0 ∨ KSTRORAGE_MAX_GROUP_NUM ≤ gid then some (-ENOENT, st)
  else
    match ks_make_item gid did data offset len data_is_user item_ok copy_ok with
    | none => none
    | some (Except.error e) => some (e, st)
    | some (Except.ok new_item) =>
      match st.groups.getD gid.toNat none with
      | none => none
      | some old =>
        if 0 ≤ ks_bsearch old did then
          if !clone_ok then some (-ENOMEM, st)
          else
            some (0, { st with groups := (st.groups.set gid.toNat
              (some ⟨old.items.set (ks_bsearch old did).toNat new_item⟩)) })
        else
          if !clone_ok then some (-ENOMEM, st)
          else
            some (0, { st with groups := (st.groups.set gid.toNat
              (some ⟨old.items.take (-ks_bsearch old did - 1).toNat ++
                new_item ::
                  old.items.drop (-ks_bsearch old did - 1).toNat⟩)) })

/-- `get_kstorage`: lock-free lookup; NULL is returned both for a bad group
and for a missing record. -/
def get_kstorage (gid did : Int) (st : KsState) : Option Kstorage :=
  if gid < 0 ∨ KSTRORAGE_MAX_GROUP_NUM ≤ gid then none
  else
    match st.groups.getD gid.toNat none with
    | none => none
    | some s =>
      if 0 ≤ ks_bsearch s did then
        some (s.items.getD (ks_bsearch s did).toNat ⟨0, 0, []⟩)
      else none

/-- Loop of `on_each_kstorage_elem`: returns the first nonzero callback
result, `0` otherwise. -/
def ks_on_each_loop (cb : Kstorage → Int) : List Kstorage → Int
  | [] => 0
  | k :: rest => if cb k ≠ 0 then cb k else ks_on_each_loop cb rest

/-- `on_each_kstorage_elem`: iterate one snapshot in order; a NULL snapshot
iterates nothing and returns `0`. -/
def on_each_kstorage_elem (gid : Int) (cb : Kstorage → Int) (st : KsState) :
    Int :=
  if gid < 0 ∨ KSTRORAGE_MAX_GROUP_NUM ≤ gid then -ENOENT
  else
    match st.groups.getD gid.toNat none with
    | none => 0
    | some s => ks_on_each_loop cb s.items

/-- `read_kstorage`: returns the C return code paired with the bytes the call
copies into `dest` (empty on any failure).  `none` models the undefined
`memcpy`/`copy_to_user` with a negative count, reachable only for `len < 0`.
The copied count is `n = min(dlen - offset, len)` exactly as computed by the
C code; the return code on success is `0`. -/
def read_kstorage (gid did offset len : Int) (data_is_user copy_ok : Bool)
    (st : KsState) : Option (Int × List Nat) :=
  if gid < 0 ∨ KSTRORAGE_MAX_GROUP_NUM ≤ gid then some (-ENOENT, [])
  else
    match st.groups.getD gid.toNat none with
    | none => some (-ENOENT, [])
    | some s =>
      if ks_bsearch s did < 0 then some (-ENOENT, [])
      else
        if offset < 0 ∨
            (s.items.getD (ks_bsearch s did).toNat ⟨0, 0, []⟩).dlen ≤ offset
        then some (-EINVAL, [])
        else
          if min ((s.items.getD (ks_bsearch s did).toNat ⟨0, 0, []⟩).dlen -
              offset) len < 0 then none
          else if data_is_user ∧ ¬copy_ok then some (-EFAULT, [])
          else
            some (0,
              ((s.items.getD (ks_bsearch s did).toNat ⟨0, 0, []⟩).data.drop
                  offset.toNat).take
                (min ((s.items.getD (ks_bsearch s did).toNat
                  ⟨0, 0, []⟩).dlen - offset) len).toNat)

/-- `list_kstorage_ids`: copy out up to `idslen` record ids in snapshot
order; a NULL snapshot leaves `cnt = 0`.  A faulting user copy (possible only
when the loop runs) reports `-EFAULT`. -/
def list_kstorage_ids (gid idslen : Int) (data_is_user copy_ok : Bool)
    (st : KsState) : Int × List Int :=
  if gid < 0 ∨ KSTRORAGE_MAX_GROUP_NUM ≤ gid then (-ENOENT, [])
  else
    match st.groups.getD gid.toNat none with
    | none => (0, [])
    | some s =>
      if data_is_user ∧ ¬copy_ok ∧ 0 < min idslen s.size then (-EFAULT, [])
      else
        (min idslen s.size,
          (s.items.map Kstorage.did).take (min idslen s.size).toNat)

/-- `remove_kstorage`: copy-on-write delete; the left segment is kept and the
right segment shifted down by one.  `clone_ok` is the allocation oracle for
`ks_clone_snapshot`. -/
def remove_kstorage (gid did : Int) (clone_ok : Bool) (st : KsState) :
    Int × KsState :=
  if gid < 0 ∨ KSTRORAGE_MAX_GROUP_NUM ≤ gid then (-ENOENT, st)
  else
    match st.groups.getD gid.toNat none with
    | none => (-ENOENT, st)
    | some old =>
      if ks_bsearch old did < 0 then (-ENOENT, st)
      else if !clone_ok then (-ENOMEM, st)
      else
        (0, { st with groups := (st.groups.set gid.toNat
          (some ⟨old.items.take (ks_bsearch old did).toNat ++
            old.items.drop ((ks_bsearch old did).toNat + 1)⟩)) })

/-- One API call together with its allocation/copy oracles, for statements
over whole call sequences. -/
inductive KsOp where
  | alloc (alloc_ok : Bool)
  | write (gid did : Int) (data : List Nat) (offset len : Int)
      (data_is_user item_ok clone_ok copy_ok : Bool)
  | remove (gid did : Int) (clone_ok : Bool)
deriving DecidableEq, Repr

/-- The state transition of one call; `none` propagates a crash. -/
def ksStep : KsOp → KsState → Option KsState
  | KsOp.alloc ok, st => some (try_alloc_kstroage_group ok st).2
  | KsOp.write gid did data offset len u i c cp, st =>
    (write_kstorage gid did data offset len u i c cp st).map Prod.snd
  | KsOp.remove gid did ok, st => some (remove_kstorage gid did ok st).2

/-- Run a sequence of calls from a state. -/
def ksRun : List KsOp → KsState → Option KsState
  | [], st => some st
  | op :: rest, st =>
    match ksStep op st with
    | none => none
    | some st2 => ksRun rest st2

/-- The group ids handed out (nonnegative return values of the allocation
calls) along a run. -/
def ksIssued : List KsOp → KsState → List Int
  | [], _ => []
  | KsOp.alloc ok :: rest, st =>
    let r := try_alloc_kstroage_group ok st
    (if 0 ≤ r.1 then [r.1] else []) ++ ksIssued rest r.2
  | op :: rest, st =>
    match ksStep op st with
    | none => []
    | some st2 => ksIssued rest st2

/-- The snapshot ordering invariant of the spec: record ids strictly
increasing, hence no duplicates. -/
def SortedDids (l : List Kstorage) : Prop :=
  List.Pairwise (fun a b => a.did < b.did) l

instance (l : List Kstorage) : Decidable (SortedDids l) :=
  inferInstanceAs (Decidable (List.Pairwise _ l))

/-- Number of records with id strictly below `d`; for a sorted snapshot this
is the insertion point of `d`. -/
def ksCountLt (l : List Kstorage) (d : Int) : Nat :=
  l.countP (fun k => decide (k.did < d))

/-- Index form of the ordering invariant. -/
lemma sortedDids_iff (l : List Kstorage) :
    SortedDids l ↔ ∀ (i j : Nat) (h1 : i < l.length) (h2 : j < l.length),
      i < j → l[i].did < l[j].did := by
  unfold SortedDids
  rw [List.pairwise_iff_getElem]

/-- Counting a predicate that holds exactly on the first `n` positions. -/
lemma ks_countP_boundary {α : Type} (l : List α) (p : α → Bool) :
    ∀ n : Nat, n ≤ l.length →
      (∀ i (h : i < l.length), i < n → p l[i] = true) →
      (∀ i (h : i < l.length), n ≤ i → p l[i] = false) →
      l.countP p = n := by
  induction l with
  | nil =>
    intro n hn _ _
    simp only [List.length_nil, Nat.le_zero] at hn
    simp [hn]
  | cons a t ih =>
    intro n hn h1 h2
    cases n with
    | zero =>
      have ha : p a = false := by
        simpa using h2 0 (by simp) (Nat.le_refl 0)
      have ht : t.countP p = 0 := by
        apply ih 0 (Nat.zero_le _)
        · intro i h hi
          exact absurd hi (Nat.not_lt_zero i)
        · intro i h _
          simpa using h2 (i + 1) (by simpa using Nat.succ_lt_succ h) (Nat.zero_le _)
      simp [List.countP_cons, ha, ht]
    | succ m =>
      have ha : p a = true := by
        simpa using h1 0 (by simp) (Nat.succ_pos m)
      have ht : t.countP p = m := by
        apply ih m (by simpa using hn)
        · intro i h hi
          simpa using h1 (i + 1) (by simpa using Nat.succ_lt_succ h)
            (Nat.succ_lt_succ hi)
        · intro i h hi
          simpa using h2 (i + 1) (by simpa using Nat.succ_lt_succ h)
            (Nat.succ_le_succ hi)
      simp [List.countP_cons, ha, ht]

/-- For a sorted snapshot, a record id is below `d` exactly when its index is
below the insertion point `ksCountLt`. -/
lemma ksCountLt_spec (d : Int) :
    ∀ (l : List Kstorage), SortedDids l →
      ∀ i (h : i < l.length), (l[i].did < d ↔ i < ksCountLt l d) := by
  intro l
  induction l with
  | nil =>
    intro _ i h
    simp at h
  | cons a t ih =>
    intro hs i h
    have hs' := List.pairwise_cons.mp hs
    unfold ksCountLt
    rw [List.countP_cons]
    cases i with
    | zero =>
      simp only [List.getElem_cons_zero]
      by_cases hlt : a.did < d
      · simp [hlt]
      · have h0 : t.countP (fun k => decide (k.did < d)) = 0 := by
          rw [List.countP_eq_zero]
          intro b hb
          simp only [decide_eq_true_eq]
          intro hbd
          exact hlt (lt_trans (hs'.1 b hb) hbd)
        simp [hlt, h0]
    | succ m =>
      simp only [List.getElem_cons_succ]
      have hm : m < t.length := by simpa using h
      by_cases hlt : a.did < d
      · have hiff := ih hs'.2 m hm
        unfold ksCountLt at hiff
        rw [hiff]
        have hone : (if (fun k => decide (k.did < d)) a = true then 1 else 0) = 1 := by
          simp [hlt]
        rw [hone]
        omega
      · have h0 : t.countP (fun k => decide (k.did < d)) = 0 := by
          rw [List.countP_eq_zero]
          intro b hb
          simp only [decide_eq_true_eq]
          intro hbd
          exact hlt (lt_trans (hs'.1 b hb) hbd)
        have hmt : ¬ t[m].did < d := by
          intro hc
          exact hlt (lt_trans (hs'.1 t[m] (List.getElem_mem hm)) hc)
        simp [hlt, h0, hmt]

/-- When every index below `lo` holds an id under `d` and every index from
`lo` on an id above `d`, the target is absent and the insertion point is
`lo`. -/
lemma ks_bsearch_base (items : List Kstorage) (d : Int) (lo : Int)
    (h0 : 0 ≤ lo) (hlen : lo ≤ (items.length : Int))
    (hlow : ∀ i (h : i < items.length), (i : Int) < lo → items[i].did < d)
    (hhigh : ∀ i (h : i < items.length), lo ≤ (i : Int) → d < items[i].did) :
    d ∉ items.map Kstorage.did ∧ ksCountLt items d = lo.toNat := by
  constructor
  · intro hmem
    rcases List.mem_map.mp hmem with ⟨k, hk, hkd⟩
    rcases List.mem_iff_getElem.mp hk with ⟨i, hi, rfl⟩
    by_cases hc : (i : Int) < lo
    · exact absurd hkd (ne_of_lt (hlow i hi hc))
    · exact absurd hkd (ne_of_gt (hhigh i hi (le_of_not_lt hc)))
  · apply ks_countP_boundary
    · omega
    · intro i h hi
      simp only [decide_eq_true_eq]
      exact hlow i h (by omega)
    · intro i h hi
      exact decide_eq_false (not_lt.mpr (le_of_lt (hhigh i h (by omega))))

/-- Loop invariant of `ks_bsearch_go`: with enough fuel and a bracketing pair
`lo, hi`, the loop computes the hit index (equal to the insertion point) or
the negative encoding of the insertion point. -/
lemma ks_bsearch_go_spec (items : List Kstorage) (d : Int)
    (hs : SortedDids items) :
    ∀ (fuel : Nat) (lo hi : Int), 0 ≤ lo → lo ≤ (items.length : Int) →
      hi < (items.length : Int) → (hi + 1 - lo).toNat ≤ fuel →
      (∀ i (h : i < items.length), (i : Int) < lo → items[i].did < d) →
      (∀ i (h : i < items.length), hi < (i : Int) → d < items[i].did) →
      ks_bsearch_go items d fuel lo hi =
        if d ∈ items.map Kstorage.did then (ksCountLt items d : Int)
        else -((ksCountLt items d : Int) + 1) := by
  have pw := (sortedDids_iff items).mp hs
  intro fuel
  induction fuel with
  | zero =>
    intro lo hi h0 hlolen hhilen hfuel hlow hhigh
    have hb := ks_bsearch_base items d lo h0 hlolen hlow
      (fun i h hi2 => hhigh i h (by omega))
    simp only [ks_bsearch_go]
    rw [if_neg hb.1, hb.2]
    omega
  | succ fuel ih =>
    intro lo hi h0 hlolen hhilen hfuel hlow hhigh
    by_cases hcase : lo ≤ hi
    · have hmid0 : 0 ≤ lo + (hi - lo) / 2 := by omega
      have hmlo : lo ≤ lo + (hi - lo) / 2 := by omega
      have hmhi : lo + (hi - lo) / 2 ≤ hi := by omega
      have hmidlt : (lo + (hi - lo) / 2).toNat < items.length := by omega
      have hmdid : ((items.get? (lo + (hi - lo) / 2).toNat).map
          Kstorage.did).getD 0 = items[(lo + (hi - lo) / 2).toNat].did := by
        rw [List.get?_eq_getElem?, List.getElem?_eq_getElem hmidlt]
        rfl
      simp only [ks_bsearch_go]
      rw [if_pos hcase, hmdid]
      by_cases heq : items[(lo + (hi - lo) / 2).toNat].did = d
      · rw [if_pos heq]
        have hmem : d ∈ items.map Kstorage.did :=
          List.mem_map.mpr ⟨_, List.getElem_mem hmidlt, heq⟩
        rw [if_pos hmem]
        have hc : ksCountLt items d = (lo + (hi - lo) / 2).toNat := by
          apply ks_countP_boundary
          · omega
          · intro i h hi2
            simp only [decide_eq_true_eq]
            by_cases hilo : (i : Int) < lo
            · exact hlow i h hilo
            · have := pw i (lo + (hi - lo) / 2).toNat h hmidlt hi2
              rw [heq] at this
              exact this
          · intro i h hi2
            apply decide_eq_false
            rcases Nat.eq_or_lt_of_le hi2 with he | hl
            · subst he
              exact fun hc => (ne_of_lt hc) heq
            · have := pw (lo + (hi - lo) / 2).toNat i hmidlt h hl
              rw [heq] at this
              exact not_lt.mpr (le_of_lt this)
        rw [hc]
        omega
      · rw [if_neg heq]
        by_cases hlt : items[(lo + (hi - lo) / 2).toNat].did < d
        · rw [if_pos hlt]
          apply ih (lo + (hi - lo) / 2 + 1) hi (by omega) (by omega) hhilen
            (by omega) ?_ hhigh
          intro i h hi2
          by_cases hilo : (i : Int) < lo
          · exact hlow i h hilo
          · have hile : i ≤ (lo + (hi - lo) / 2).toNat := by omega
            rcases Nat.eq_or_lt_of_le hile with he | hl
            · subst he
              exact hlt
            · exact lt_trans (pw i (lo + (hi - lo) / 2).toNat h hmidlt hl) hlt
        · rw [if_neg hlt]
          have hgt : d < items[(lo + (hi - lo) / 2).toNat].did :=
            lt_of_le_of_ne (not_lt.mp hlt) (Ne.symm heq)
          apply ih lo (lo + (hi - lo) / 2 - 1) h0 hlolen (by omega) (by omega)
            hlow ?_
          intro i h hi2
          have hile : (lo + (hi - lo) / 2).toNat ≤ i := by omega
          rcases Nat.eq_or_lt_of_le hile with he | hl
          · subst he
            exact hgt
          · exact lt_trans hgt (pw (lo + (hi - lo) / 2).toNat i hmidlt h hl)
    · have hb := ks_bsearch_base items d lo h0 hlolen hlow
        (fun i h hi2 => hhigh i h (by omega))
      simp only [ks_bsearch_go]
      rw [if_neg hcase, if_neg hb.1, hb.2]
      omega

/-- `ks_bsearch` on a sorted snapshot: hit index = insertion point when the
id is present, negative encoding of the insertion point otherwise. -/
lemma ks_bsearch_char (s : KsGroupSnapshot) (d : Int) (hs : SortedDids s.items) :
    ks_bsearch s d =
      if d ∈ s.items.map Kstorage.did then (ksCountLt s.items d : Int)
      else -((ksCountLt s.items d : Int) + 1) := by
  show ks_bsearch_go s.items d (s.items.length + 1) 0
    ((s.items.length : Int) - 1) = _
  exact ks_bsearch_go_spec s.items d hs (s.items.length + 1) 0
    ((s.items.length : Int) - 1)
    (le_refl 0) (by omega) (by omega) (by omega)
    (fun i h hi => absurd hi (by omega))
    (fun i h hi => absurd hi (by omega))

/-- A present id is found at its exact (unique, sorted) index. -/
lemma ks_bsearch_found (s : KsGroupSnapshot) (d : Int)
    (hs : SortedDids s.items) (j : Nat) (hj : j < s.items.length)
    (hd : s.items[j].did = d) :
    ks_bsearch s d = (j : Int) ∧ ksCountLt s.items d = j := by
  have pw := (sortedDids_iff s.items).mp hs
  have hmem : d ∈ s.items.map Kstorage.did :=
    List.mem_map.mpr ⟨s.items[j], List.getElem_mem hj, hd⟩
  have hc : ksCountLt s.items d = j := by
    apply ks_countP_boundary _ _ j (le_of_lt hj)
    · intro i h hi
      simp only [decide_eq_true_eq]
      have := pw i j h hj hi
      rw [hd] at this
      exact this
    · intro i h hi
      apply decide_eq_false
      rcases Nat.eq_or_lt_of_le hi with he | hl
      · subst he
        exact fun hc => (ne_of_lt hc) hd
      · have := pw j i hj h hl
        rw [hd] at this
        exact not_lt.mpr (le_of_lt this)
  refine ⟨?_, hc⟩
  rw [ks_bsearch_char s d hs, if_pos hmem, hc]

/-- A nonnegative search result points at a record with the searched id. -/
lemma ks_bsearch_found_inv (s : KsGroupSnapshot) (d : Int)
    (hs : SortedDids s.items) (h : 0 ≤ ks_bsearch s d) :
    ∃ hj : (ks_bsearch s d).toNat < s.items.length,
      s.items[(ks_bsearch s d).toNat].did = d := by
  by_cases hmem : d ∈ s.items.map Kstorage.did
  · rcases List.mem_map.mp hmem with ⟨k, hk, hkd⟩
    rcases List.mem_iff_getElem.mp hk with ⟨j, hj, rfl⟩
    have hf := ks_bsearch_found s d hs j hj hkd
    rw [hf.1]
    simpa [Int.toNat_natCast] using ⟨hj, hkd⟩
  · rw [ks_bsearch_char s d hs, if_neg hmem] at h
    omega

/-- An absent id yields the negative insertion-point encoding. -/
lemma ks_bsearch_not_found (s : KsGroupSnapshot) (d : Int)
    (hs : SortedDids s.items) (h : d ∉ s.items.map Kstorage.did) :
    ks_bsearch s d = -((ksCountLt s.items d : Int) + 1) := by
  rw [ks_bsearch_char s d hs, if_neg h]

/-- Inserting a fresh id at its insertion point keeps the snapshot sorted. -/
lemma sortedDids_insert (l : List Kstorage) (d : Int) (k : Kstorage)
    (hs : SortedDids l) (habs : d ∉ l.map Kstorage.did) (hk : k.did = d) :
    SortedDids (l.take (ksCountLt l d) ++ k :: l.drop (ksCountLt l d)) := by
  have hcle : ksCountLt l d ≤ l.length := List.countP_le_length _
  unfold SortedDids
  rw [List.pairwise_append]
  refine ⟨List.Pairwise.sublist (List.take_sublist _ _) hs, ?_, ?_⟩
  · rw [List.pairwise_cons]
    constructor
    · intro b hb
      rcases List.mem_iff_getElem.mp hb with ⟨j, hj, rfl⟩
      rw [List.getElem_drop]
      have hlen : ksCountLt l d + j < l.length := by
        rw [List.length_drop] at hj
        omega
      have hnotlt : ¬ l[ksCountLt l d + j].did < d := by
        intro hc
        have := (ksCountLt_spec d l hs _ hlen).mp hc
        omega
      have hne : l[ksCountLt l d + j].did ≠ d := by
        intro hc
        exact habs (List.mem_map.mpr ⟨_, List.getElem_mem hlen, hc⟩)
      rw [hk]
      exact lt_of_le_of_ne (not_lt.mp hnotlt) (Ne.symm hne)
    · exact List.Pairwise.sublist (List.drop_sublist _ _) hs
  · intro a ha b hb
    rcases List.mem_iff_getElem.mp ha with ⟨i, hi, rfl⟩
    have hilen : i < l.length := by
      rw [List.length_take] at hi
      omega
    have hic : i < ksCountLt l d := by
      rw [List.length_take] at hi
      omega
    rw [List.getElem_take]
    have hia : l[i].did < d := (ksCountLt_spec d l hs i hilen).mpr hic
    rcases List.mem_cons.mp hb with rfl | hb2
    · rw [hk]
      exact hia
    · rcases List.mem_iff_getElem.mp hb2 with ⟨j, hj, rfl⟩
      rw [List.getElem_drop]
      have hlenj : ksCountLt l d + j < l.length := by
        rw [List.length_drop] at hj
        omega
      have hnotlt : ¬ l[ksCountLt l d + j].did < d := by
        intro hc
        have := (ksCountLt_spec d l hs _ hlenj).mp hc
        omega
      exact lt_of_lt_of_le hia (not_lt.mp hnotlt)

/-- Replacing a record by one with the same id keeps the snapshot sorted. -/
lemma sortedDids_set (l : List Kstorage) (j : Nat) (hj : j < l.length)
    (k : Kstorage) (hk : k.did = l[j].did) (hs : SortedDids l) :
    SortedDids (l.set j k) := by
  have pw := (sortedDids_iff l).mp hs
  rw [sortedDids_iff]
  intro i i2 h1 h2 hlt
  have hl1 : i < l.length := by
    rw [List.length_set] at h1
    exact h1
  have hl2 : i2 < l.length := by
    rw [List.length_set] at h2
    exact h2
  rw [List.getElem_set, List.getElem_set]
  by_cases he1 : j = i
  · subst he1
    rw [if_pos rfl, if_neg (by omega : ¬ j = i2), hk]
    exact pw j i2 hl1 hl2 hlt
  · rw [if_neg he1]
    by_cases he2 : j = i2
    · subst he2
      rw [if_pos rfl, hk]
      exact pw i j hl1 hl2 hlt
    · rw [if_neg he2]
      exact pw i i2 hl1 hl2 hlt

/-- Removing one record keeps the snapshot sorted. -/
lemma sortedDids_erase (l : List Kstorage) (j : Nat) (hs : SortedDids l) :
    SortedDids (l.take j ++ l.drop (j + 1)) := by
  have h1 : (l.drop (j + 1)).Sublist (l.drop j) := by
    have hdd : (l.drop j).drop 1 = l.drop (j + 1) := by
      rw [List.drop_drop]
    rw [← hdd]
    exact List.drop_sublist 1 _
  have h2 : (l.take j ++ l.drop (j + 1)).Sublist (l.take j ++ l.drop j) :=
    List.Sublist.append_left h1 _
  rw [List.take_append_drop] at h2
  exact List.Pairwise.sublist h2 hs

/-- Reading one slot of the group table after writing another. -/
lemma ks_getD_set (l : List (Option KsGroupSnapshot)) (i n : Nat)
    (v : Option KsGroupSnapshot) :
    (l.set i v).getD n none =
      if i = n ∧ i < l.length then v else l.getD n none := by
  rw [List.getD_eq_getElem?_getD, List.getElem?_set,
    List.getD_eq_getElem?_getD]
  by_cases h1 : i = n
  · subst h1
    by_cases h2 : i < l.length
    · simp [h2]
    · have : l[i]? = none := List.getElem?_eq_none (by omega)
      simp [h2, this]
  · simp [h1]

/-- A successfully built item carries the requested group and record id. -/
lemma ks_make_item_ok (gid did : Int) (data : List Nat) (offset len : Int)
    (from_user alloc_ok copy_ok : Bool) (k : Kstorage)
    (h : ks_make_item gid did data offset len from_user alloc_ok copy_ok =
      some (Except.ok k)) :
    k.gid = gid ∧ k.did = did := by
  unfold ks_make_item at h
  split_ifs at h <;> simp_all <;> simp [← h]

/-- The well-formedness invariant carried by every reachable state: the group
table keeps its four slots and every published snapshot is sorted. -/
def KsInv (st : KsState) : Prop :=
  st.groups.length = 4 ∧
  ∀ n s, st.groups.getD n none = some s → SortedDids s.items

/-- The initial state satisfies the invariant. -/
lemma ksInv_init : KsInv kstorage_init := by
  constructor
  · rfl
  · intro n s h
    rcases n with _ | _ | _ | _ | n <;> simp [kstorage_init] at h

/-- Group allocation preserves the invariant. -/
lemma ksInv_alloc (ok : Bool) (st : KsState) (h : KsInv st) :
    KsInv (try_alloc_kstroage_group ok st).2 := by
  unfold try_alloc_kstroage_group
  split
  · exact ⟨h.1, h.2⟩
  · split
    · exact h
    · refine ⟨by simpa [List.length_set] using h.1, ?_⟩
      intro n s hn
      simp only at hn
      rw [ks_getD_set] at hn
      split at hn
      · cases hn
        exact List.Pairwise.nil
      · exact h.2 n s hn

/-- `write_kstorage` preserves the invariant on every non-crashing path. -/
lemma ksInv_write (gid did : Int) (data : List Nat) (offset len : Int)
    (u iok cok cpok : Bool) (st : KsState) (rc : Int) (st2 : KsState)
    (h : KsInv st)
    (hw : write_kstorage gid did data offset len u iok cok cpok st =
      some (rc, st2)) :
    KsInv st2 := by
  unfold write_kstorage at hw
  split at hw
  · simp only [Option.some.injEq, Prod.mk.injEq] at hw
    rw [← hw.2]
    exact h
  · split at hw
    · exact absurd hw (by simp)
    · simp only [Option.some.injEq, Prod.mk.injEq] at hw
      rw [← hw.2]
      exact h
    · rename_i new_item hmk
      split at hw
      · exact absurd hw (by simp)
      · rename_i old hold
        have hsold : SortedDids old.items := h.2 gid.toNat old hold
        have hdid : new_item.did = did :=
          (ks_make_item_ok _ _ _ _ _ _ _ _ _ hmk).2
        split at hw
        · rename_i hidx
          split at hw
          · simp only [Option.some.injEq, Prod.mk.injEq] at hw
            rw [← hw.2]
            exact h
          · simp only [Option.some.injEq, Prod.mk.injEq] at hw
            rw [← hw.2]
            refine ⟨by simpa [List.length_set] using h.1, ?_⟩
            intro n s hn
            simp only at hn
            rw [ks_getD_set] at hn
            split at hn
            · cases hn
              rcases ks_bsearch_found_inv old did hsold hidx with ⟨hj, hjd⟩
              exact sortedDids_set old.items _ hj new_item
                (by rw [hdid, hjd]) hsold
            · exact h.2 n s hn
        · rename_i hidx
          split at hw
          · simp only [Option.some.injEq, Prod.mk.injEq] at hw
            rw [← hw.2]
            exact h
          · simp only [Option.some.injEq, Prod.mk.injEq] at hw
            rw [← hw.2]
            refine ⟨by simpa [List.length_set] using h.1, ?_⟩
            intro n s hn
            simp only at hn
            rw [ks_getD_set] at hn
            split at hn
            · cases hn
              have hmem : did ∉ old.items.map Kstorage.did := by
                intro hmem
                rcases List.mem_map.mp hmem with ⟨k, hk, hkd⟩
                rcases List.mem_iff_getElem.mp hk with ⟨j, hj, rfl⟩
                have := (ks_bsearch_found old did hsold j hj hkd).1
                omega
              have hnf := ks_bsearch_not_found old did hsold hmem
              have hins : (-(ks_bsearch old did) - 1).toNat =
                  ksCountLt old.items did := by
                rw [hnf]
                omega
              rw [hins]
              exact sortedDids_insert old.items did new_item hsold hmem hdid
            · exact h.2 n s hn

/-- `remove_kstorage` preserves the invariant. -/
lemma ksInv_remove (gid did : Int) (ok : Bool) (st : KsState) (h : KsInv st) :
    KsInv (remove_kstorage gid did ok st).2 := by
  unfold remove_kstorage
  split
  · exact h
  · split
    · exact h
    · rename_i old hold
      split
      · exact h
      · split
        · exact h
        · refine ⟨by simpa [List.length_set] using h.1, ?_⟩
          intro n s hn
          simp only at hn
          rw [ks_getD_set] at hn
          split at hn
          · cases hn
            exact sortedDids_erase old.items _ (h.2 gid.toNat old hold)
          · exact h.2 n s hn

/-- Every step of the operational semantics preserves the invariant. -/
lemma ksInv_step (op : KsOp) (st st2 : KsState) (h : KsInv st)
    (hs : ksStep op st = some st2) : KsInv st2 := by
  cases op with
  | alloc ok =>
    cases hs
    exact ksInv_alloc ok st h
  | write gid did data offset len u i c cp =>
    simp only [ksStep, Option.map_eq_some'] at hs
    rcases hs with ⟨⟨rc, st3⟩, hw, hst⟩
    cases hst
    exact ksInv_write gid did data offset len u i c cp st rc st3 h hw
  | remove gid did ok =>
    cases hs
    exact ksInv_remove gid did ok st h

/-- Running any call sequence from an invariant state lands in an invariant
state. -/
lemma ksInv_run : ∀ (ops : List KsOp) (st st2 : KsState), KsInv st →
    ksRun ops st = some st2 → KsInv st2 := by
  intro ops
  induction ops with
  | nil =>
    intro st st2 h hr
    cases hr
    exact h
  | cons op rest ih =>
    intro st st2 h hr
    unfold ksRun at hr
    split at hr
    · exact absurd hr (by simp)
    · rename_i st3 hst3
      exact ih st3 st2 (ksInv_step op st st3 h hst3) hr

/-- A kernel-sourced item build with valid arguments succeeds and captures
exactly the requested byte range. -/
lemma ks_make_item_kernel (gid did : Int) (data : List Nat) (offset len : Int)
    (cpok : Bool) (hoff : 0 ≤ offset) (hlen : 0 ≤ len)
    (hrange : offset + len ≤ (data.length : Int)) :
    ks_make_item gid did data offset len false true cpok =
      some (Except.ok ⟨gid, did, (data.drop offset.toNat).take len.toNat⟩) := by
  unfold ks_make_item
  rw [if_neg (by omega : ¬ len < 0), if_neg (by decide : ¬ ((!true) = true))]
  by_cases h0 : len = 0
  · subst h0
    rw [if_pos rfl]
    simp
  · rw [if_neg h0, if_neg (by simp : ¬ ((false : Bool) = true)),
      if_pos ⟨hoff, hrange⟩]

/-- A write with valid kernel-side arguments into an allocated, sorted group
succeeds, publishes a sorted snapshot, and that snapshot holds the new record
(with the copied bytes) at the index the search finds for its id. -/
lemma write_kstorage_success (gid did : Int) (data : List Nat)
    (offset len : Int) (st : KsState) (old : KsGroupSnapshot)
    (hg0 : 0 ≤ gid) (hg4 : gid < KSTRORAGE_MAX_GROUP_NUM)
    (hold : st.groups.getD gid.toNat none = some old)
    (hsort : SortedDids old.items)
    (hoff : 0 ≤ offset) (hlen : 0 ≤ len)
    (hrange : offset + len ≤ (data.length : Int)) :
    ∃ (ns : KsGroupSnapshot) (j : Nat) (hj : j < ns.items.length),
      write_kstorage gid did data offset len false true true true st =
        some (0, { st with groups := (st.groups.set gid.toNat (some ns)) }) ∧
      SortedDids ns.items ∧
      ns.items[j] =
        ⟨gid, did, (data.drop offset.toNat).take len.toNat⟩ := by
  have hmk := ks_make_item_kernel gid did data offset len true hoff hlen hrange
  by_cases hidx : 0 ≤ ks_bsearch old did
  · rcases ks_bsearch_found_inv old did hsort hidx with ⟨hjlt, hjd⟩
    refine ⟨⟨old.items.set (ks_bsearch old did).toNat
        ⟨gid, did, (data.drop offset.toNat).take len.toNat⟩⟩,
      (ks_bsearch old did).toNat, ?_, ?_, ?_, ?_⟩
    · simpa [List.length_set] using hjlt
    · unfold write_kstorage
      rw [if_neg (by push_neg; exact ⟨hg0, hg4⟩), hmk, hold]
      dsimp only
      rw [if_pos hidx, if_neg (by decide : ¬ ((!true) = true))]
    · exact sortedDids_set old.items _ hjlt _ (by rw [hjd]) hsort
    · simp [List.getElem_set]
  · have hmem : did ∉ old.items.map Kstorage.did := by
      intro hmem
      rcases List.mem_map.mp hmem with ⟨k, hk, hkd⟩
      rcases List.mem_iff_getElem.mp hk with ⟨j, hj, rfl⟩
      have := (ks_bsearch_found old did hsort j hj hkd).1
      omega
    have hnf := ks_bsearch_not_found old did hsort hmem
    have hcle : ksCountLt old.items did ≤ old.items.length :=
      List.countP_le_length _
    have hins : (-ks_bsearch old did - 1).toNat = ksCountLt old.items did := by
      rw [hnf]
      omega
    have htl : (old.items.take (ksCountLt old.items did)).length =
        ksCountLt old.items did := by
      rw [List.length_take]
      omega
    refine ⟨⟨old.items.take (ksCountLt old.items did) ++
        ⟨gid, did, (data.drop offset.toNat).take len.toNat⟩ ::
          old.items.drop (ksCountLt old.items did)⟩,
      ksCountLt old.items did, ?_, ?_, ?_, ?_⟩
    · simp only [List.length_append, List.length_cons, htl]
      omega
    · unfold write_kstorage
      rw [if_neg (by push_neg; exact ⟨hg0, hg4⟩), hmk, hold]
      dsimp only
      rw [if_neg hidx, if_neg (by decide : ¬ ((!true) = true)), hins]
    · exact sortedDids_insert old.items did _ hsort hmem rfl
    · rw [List.getElem_append_right (by omega)]
      simp [htl]

/-- Full case analysis of `read_kstorage` on a present record, kernel-side
destination: invalid offsets are rejected, a negative remaining count is the
undefined-copy case, and otherwise the call succeeds returning `0` and
copying `min(dlen - offset, len)` bytes. -/
lemma read_kstorage_found (gid did offset len : Int) (st : KsState)
    (s : KsGroupSnapshot) (j : Nat)
    (hg0 : 0 ≤ gid) (hg4 : gid < KSTRORAGE_MAX_GROUP_NUM)
    (hs : st.groups.getD gid.toNat none = some s)
    (hsort : SortedDids s.items) (hj : j < s.items.length)
    (hd : s.items[j].did = did) :
    read_kstorage gid did offset len false true st =
      if offset < 0 ∨ s.items[j].dlen ≤ offset then some (-EINVAL, [])
      else if min (s.items[j].dlen - offset) len < 0 then none
      else some (0, (s.items[j].data.drop offset.toNat).take
        (min (s.items[j].dlen - offset) len).toNat) := by
  have hf := (ks_bsearch_found s did hsort j hj hd).1
  have hgd : s.items.getD ((j : Int)).toNat ⟨0, 0, []⟩ = s.items[j] := by
    rw [Int.toNat_natCast, List.getD_eq_getElem?_getD,
      List.getElem?_eq_getElem hj]
    rfl
  unfold read_kstorage
  rw [if_neg (by push_neg; exact ⟨hg0, hg4⟩), hs]
  dsimp only
  rw [hf, if_neg (by omega : ¬ (j : Int) < 0), hgd]
  by_cases hbad : offset < 0 ∨ s.items[j].dlen ≤ offset
  · rw [if_pos hbad, if_pos hbad]
  · rw [if_neg hbad, if_neg hbad]
    by_cases hneg : min (s.items[j].dlen - offset) len < 0
    · rw [if_pos hneg, if_pos hneg]
    · rw [if_neg hneg, if_neg hneg,
        if_neg (by simp : ¬ ((false : Bool) = true ∧ ¬ (true : Bool) = true))]

/-- A nonnegative allocation return value is the incremented counter, which
the successful call also publishes. -/
lemma try_alloc_pos (ok : Bool) (st : KsState)
    (h : 0 ≤ (try_alloc_kstroage_group ok st).1) :
    (try_alloc_kstroage_group ok st).1 = st.used_max_group + 1 ∧
    (try_alloc_kstroage_group ok st).2.used_max_group =
      st.used_max_group + 1 := by
  by_cases h1 : st.used_max_group + 1 < 0 ∨
      KSTRORAGE_MAX_GROUP_NUM ≤ st.used_max_group + 1
  · unfold try_alloc_kstroage_group at h
    rw [if_pos h1] at h
    norm_num at h
  · unfold try_alloc_kstroage_group at h ⊢
    rw [if_neg h1] at h ⊢
    by_cases h2 : (!ok) = true
    · rw [if_pos h2] at h
      norm_num [ENOMEM] at h
    · rw [if_neg h2]
      exact ⟨rfl, rfl⟩

/-- Allocation never lowers the observable counter. -/
lemma try_alloc_used_mono (ok : Bool) (st : KsState) :
    st.used_max_group ≤ (try_alloc_kstroage_group ok st).2.used_max_group := by
  unfold try_alloc_kstroage_group
  split
  · simp only
    omega
  · split
    · exact le_refl _
    · simp only
      omega

/-- `write_kstorage` never touches the allocation counter. -/
lemma write_kstorage_used (gid did : Int) (data : List Nat)
    (offset len : Int) (u iok cok cpok : Bool) (st : KsState) (rc : Int)
    (st2 : KsState)
    (hw : write_kstorage gid did data offset len u iok cok cpok st =
      some (rc, st2)) :
    st2.used_max_group = st.used_max_group := by
  unfold write_kstorage at hw
  repeat' split at hw
  all_goals
    first
      | (simp only [Option.some.injEq, Prod.mk.injEq] at hw
         rw [← hw.2])
      | simp at hw

/-- `remove_kstorage` never touches the allocation counter. -/
lemma remove_kstorage_used (gid did : Int) (ok : Bool) (st : KsState) :
    (remove_kstorage gid did ok st).2.used_max_group =
      st.used_max_group := by
  unfold remove_kstorage
  repeat' split
  all_goals rfl

/-- Across every operation the counter is monotone. -/
lemma ksStep_used_mono (op : KsOp) (st st2 : KsState)
    (h : ksStep op st = some st2) :
    st.used_max_group ≤ st2.used_max_group := by
  cases op with
  | alloc ok =>
    cases h
    exact try_alloc_used_mono ok st
  | write gid did data offset len u i c cp =>
    simp only [ksStep, Option.map_eq_some'] at h
    rcases h with ⟨⟨rc, st3⟩, hw, hst⟩
    cases hst
    rw [write_kstorage_used gid did data offset len u i c cp st rc st3 hw]
  | remove gid did ok =>
    cases h
    rw [remove_kstorage_used gid did ok st]

/-- Every id issued along a run exceeds the starting counter. -/
lemma ksIssued_gt : ∀ (ops : List KsOp) (st : KsState),
    ∀ x ∈ ksIssued ops st, st.used_max_group < x := by
  intro ops
  induction ops with
  | nil =>
    intro st x hx
    simp [ksIssued] at hx
  | cons op rest ih =>
    intro st x hx
    cases op with
    | alloc ok =>
      unfold ksIssued at hx
      rcases List.mem_append.mp hx with h1 | h2
      · split at h1
        · rename_i hpos
          simp only [List.mem_singleton] at h1
          subst h1
          rw [(try_alloc_pos ok st hpos).1]
          omega
        · simp at h1
      · have hlt := ih (try_alloc_kstroage_group ok st).2 x h2
        have hle := try_alloc_used_mono ok st
        omega
    | write gid did data offset len u i c cp =>
      unfold ksIssued at hx
      split at hx
      · simp at hx
      · rename_i st3 hst3
        have hlt := ih st3 x hx
        have hle := ksStep_used_mono _ st st3 hst3
        omega
    | remove gid did ok =>
      unfold ksIssued at hx
      split at hx
      · simp at hx
      · rename_i st3 hst3
        have hlt := ih st3 x hx
        have hle := ksStep_used_mono _ st st3 hst3
        omega

/-- The ids issued along any run are strictly increasing. -/
lemma ksIssued_sorted : ∀ (ops : List KsOp) (st : KsState),
    List.Pairwise (· < ·) (ksIssued ops st) := by
  intro ops
  induction ops with
  | nil =>
    intro st
    simp [ksIssued]
  | cons op rest ih =>
    intro st
    cases op with
    | alloc ok =>
      unfold ksIssued
      rw [List.pairwise_append]
      refine ⟨?_, ih _, ?_⟩
      · split
        · simp
        · simp
      · intro a ha b hb
        split at ha
        · rename_i hpos
          simp only [List.mem_singleton] at ha
          subst ha
          have h1 := try_alloc_pos ok st hpos
          have h2 := ksIssued_gt rest (try_alloc_kstroage_group ok st).2 b hb
          omega
        · simp at ha
    | write gid did data offset len u i c cp =>
      unfold ksIssued
      split
      · simp
      · exact ih _
    | remove gid did ok =>
      unfold ksIssued
      split
      · simp
      · exact ih _

/-- State after allocating group 0 from the initial state. -/
def ksExampleAlloc : KsState := ⟨0, [some ⟨[]⟩, none, none, none]⟩

/-- State with record id 7 holding the bytes of "abcdef" in group 0. -/
def ksExampleAbcdef : KsState :=
  ⟨0, [some ⟨[⟨0, 7, [97, 98, 99, 100, 101, 102]⟩]⟩, none, none, none]⟩

/-- State with record id 7 holding the empty byte string in group 0. -/
def ksExampleEmptyRec : KsState :=
  ⟨0, [some ⟨[⟨0, 7, []⟩]⟩, none, none, none]⟩

/-- C1 counterexample: after writing the six bytes of "abcdef" under id 7,
`read` at `offset == length` (6) returns `-EINVAL`, whereas the claim demands
success with zero bytes copied (the spec scenario
`read(0, 7, buf, 6, 1)` succeeds). -/
theorem C1_counterexample :
    write_kstorage 0 7 [97, 98, 99, 100, 101, 102] 0 6 false true true true
      ksExampleAlloc = some (0, ksExampleAbcdef) ∧
    read_kstorage 0 7 6 1 false true ksExampleAbcdef = some (-EINVAL, []) ∧
    (-EINVAL : Int) ≠ 0 := by decide

/-- C1 (amended): for a record of length `L` present in an allocated group,
`read` returns `-EINVAL` exactly when `offset < 0` or `offset ≥ L`; the
boundary `offset == L` is rejected with `InvalidArgument` rather than
succeeding with zero bytes copied. -/
theorem C1_read_offset_policy (gid did offset len : Int) (st : KsState)
    (s : KsGroupSnapshot) (j : Nat)
    (hg0 : 0 ≤ gid) (hg4 : gid < KSTRORAGE_MAX_GROUP_NUM)
    (hs : st.groups.getD gid.toNat none = some s)
    (hsort : SortedDids s.items) (hj : j < s.items.length)
    (hd : s.items[j].did = did) :
    read_kstorage gid did offset len false true st = some (-EINVAL, []) ↔
      (offset < 0 ∨ s.items[j].dlen ≤ offset) := by
  rw [read_kstorage_found gid did offset len st s j hg0 hg4 hs hsort hj hd]
  constructor
  · intro h
    by_contra hbad
    rw [if_neg hbad] at h
    by_cases hneg : min (s.items[j].dlen - offset) len < 0
    · rw [if_pos hneg] at h
      exact absurd h (by simp)
    · rw [if_neg hneg] at h
      simp only [Option.some.injEq, Prod.mk.injEq] at h
      exact absurd h.1 (by decide)
  · intro h
    rw [if_pos h]

/-- C1 witness: the boundary rejection at a concrete input. -/
theorem C1_witness :
    read_kstorage 0 7 6 1 false true ksExampleAbcdef = some (-EINVAL, []) :=
  (C1_read_offset_policy 0 7 6 1 ksExampleAbcdef
    ⟨[⟨0, 7, [97, 98, 99, 100, 101, 102]⟩]⟩ 0
    (by decide) (by decide) (by decide) (by decide) (by decide)
    (by decide)).mpr (by decide)

/-- C2 counterexample: a successful read of 3 bytes returns `0`, not the
number of bytes copied `min(len, L - offset) = 3` the claim requires. -/
theorem C2_counterexample :
    read_kstorage 0 7 0 3 false true ksExampleAbcdef =
      some (0, [97, 98, 99]) ∧
    (0 : Int) ≠ min 3 (6 - 0) := by decide

/-- C2 (amended): for a present record and a valid offset in `[0, L)` with
`len ≥ 0`, the read succeeds; the bytes copied into `dest` number
`min(len, L - offset)`, while the function's return value is `0`, not the
byte count. -/
theorem C2_read_copies_min (gid did offset len : Int) (st : KsState)
    (s : KsGroupSnapshot) (j : Nat)
    (hg0 : 0 ≤ gid) (hg4 : gid < KSTRORAGE_MAX_GROUP_NUM)
    (hs : st.groups.getD gid.toNat none = some s)
    (hsort : SortedDids s.items) (hj : j < s.items.length)
    (hd : s.items[j].did = did)
    (hoff : 0 ≤ offset) (hlt : offset < s.items[j].dlen) (hlen : 0 ≤ len) :
    ∃ out : List Nat,
      read_kstorage gid did offset len false true st = some (0, out) ∧
      (out.length : Int) = min len (s.items[j].dlen - offset) := by
  rw [read_kstorage_found gid did offset len st s j hg0 hg4 hs hsort hj hd]
  rw [if_neg (by push_neg; exact ⟨hoff, hlt⟩)]
  rw [if_neg (not_lt.mpr (le_min (by omega) hlen))]
  refine ⟨_, rfl, ?_⟩
  have hdlen : s.items[j].dlen = (s.items[j].data.length : Int) := rfl
  rw [List.length_take, List.length_drop]
  rcases le_total (s.items[j].dlen - offset) len with hc | hc
  · rw [min_eq_left hc, min_eq_left (by omega), min_eq_right hc]
    omega
  · rw [min_eq_right hc, min_eq_left (by omega), min_eq_left hc]
    omega

/-- C2 witness: the amended statement at a concrete input. -/
theorem C2_witness :
    ∃ out : List Nat,
      read_kstorage 0 7 0 3 false true ksExampleAbcdef = some (0, out) ∧
      (out.length : Int) =
        min 3 ((Kstorage.mk 0 7 [97, 98, 99, 100, 101, 102]).dlen - 0) :=
  C2_read_copies_min 0 7 0 3 ksExampleAbcdef
    ⟨[⟨0, 7, [97, 98, 99, 100, 101, 102]⟩]⟩ 0
    (by decide) (by decide) (by decide) (by decide) (by decide) (by decide)
    (by decide) (by decide) (by decide)

/-- C8: on a snapshot with strictly ascending record ids, the binary search
returns the exact index of a present id, and for an absent id the encoding
`-(insertion_index + 1)`, where inserting a record with the searched id at
`insertion_index` keeps the array sorted. -/
theorem C8_bsearch_correct (s : KsGroupSnapshot) (did : Int)
    (hs : SortedDids s.items) :
    (∀ j (hj : j < s.items.length), s.items[j].did = did →
      ks_bsearch s did = (j : Int)) ∧
    (did ∉ s.items.map Kstorage.did →
      ks_bsearch s did = -((ksCountLt s.items did : Int) + 1) ∧
      ∀ gid data, SortedDids
        (s.items.take (ksCountLt s.items did) ++
          (⟨gid, did, data⟩ : Kstorage) ::
            s.items.drop (ksCountLt s.items did))) :=
  ⟨fun j hj hd => (ks_bsearch_found s did hs j hj hd).1,
   fun h => ⟨ks_bsearch_not_found s did hs h,
     fun _ _ => sortedDids_insert s.items did _ hs h rfl⟩⟩

/-- C8 witness: hit and miss at concrete inputs. -/
theorem C8_witness :
    ks_bsearch ⟨[⟨0, 1, []⟩, ⟨0, 3, []⟩, ⟨0, 5, []⟩]⟩ 3 = (1 : Int) ∧
    ks_bsearch ⟨[⟨0, 1, []⟩, ⟨0, 3, []⟩, ⟨0, 5, []⟩]⟩ 4 =
      -((ksCountLt [⟨0, 1, []⟩, ⟨0, 3, []⟩, ⟨0, 5, []⟩] 4 : Int) + 1) :=
  ⟨(C8_bsearch_correct ⟨[⟨0, 1, []⟩, ⟨0, 3, []⟩, ⟨0, 5, []⟩]⟩ 3
      (by decide)).1 1 (by decide) (by decide),
   ((C8_bsearch_correct ⟨[⟨0, 1, []⟩, ⟨0, 3, []⟩, ⟨0, 5, []⟩]⟩ 4
      (by decide)).2 (by decide)).1⟩

/-- C9: removing an id absent from an allocated group returns `-ENOENT` and
leaves the whole state (hence the published snapshot and the group size)
unchanged. -/
theorem C9_remove_absent (gid did : Int) (ok : Bool) (st : KsState)
    (s : KsGroupSnapshot)
    (hg0 : 0 ≤ gid) (hg4 : gid < KSTRORAGE_MAX_GROUP_NUM)
    (hs : st.groups.getD gid.toNat none = some s)
    (hsort : SortedDids s.items)
    (habs : did ∉ s.items.map Kstorage.did) :
    remove_kstorage gid did ok st = (-ENOENT, st) ∧
    kstorage_group_size gid (remove_kstorage gid did ok st).2 =
      kstorage_group_size gid st := by
  have hnf := ks_bsearch_not_found s did hsort habs
  have hneg : ks_bsearch s did < 0 := by
    rw [hnf]
    omega
  have h1 : remove_kstorage gid did ok st = (-ENOENT, st) := by
    unfold remove_kstorage
    rw [if_neg (by push_neg; exact ⟨hg0, hg4⟩), hs]
    dsimp only
    rw [if_pos hneg]
  exact ⟨h1, by rw [h1]⟩

/-- C9 witness: removing the absent id 9 from a concrete group. -/
theorem C9_witness :
    remove_kstorage 0 9 true ksExampleAbcdef = (-ENOENT, ksExampleAbcdef) :=
  (C9_remove_absent 0 9 true ksExampleAbcdef
    ⟨[⟨0, 7, [97, 98, 99, 100, 101, 102]⟩]⟩
    (by decide) (by decide) (by decide) (by decide) (by decide)).1

/-- C3 counterexample: the round trip fails for the empty byte sequence:
writing zero bytes under id 7 succeeds, but the following
`read(gid, id, 0, 0)` returns `-EINVAL` (the code rejects
`offset ≥ length`, and here `0 ≥ 0`), instead of returning the empty
bytes. -/
theorem C3_counterexample :
    write_kstorage 0 7 [] 0 0 false true true true ksExampleAlloc =
      some (0, ksExampleEmptyRec) ∧
    read_kstorage 0 7 0 0 false true ksExampleEmptyRec =
      some (-EINVAL, []) := by decide

/-- C3 (amended): for every nonempty byte sequence and every allocated,
sorted group of a well-formed state, `write(gid, id, bytes)` followed by
`read(gid, id, 0, len(bytes))` succeeds and yields exactly `bytes`; the
empty sequence is excluded because the read side rejects
`offset == length == 0`. -/
theorem C3_round_trip (gid did : Int) (bytes : List Nat) (st : KsState)
    (s : KsGroupSnapshot)
    (hg0 : 0 ≤ gid) (hg4 : gid < KSTRORAGE_MAX_GROUP_NUM)
    (hlen4 : st.groups.length = 4)
    (hs : st.groups.getD gid.toNat none = some s)
    (hsort : SortedDids s.items) (hb : bytes ≠ []) :
    ∃ st2 : KsState,
      write_kstorage gid did bytes 0 (bytes.length : Int) false true true true
        st = some (0, st2) ∧
      read_kstorage gid did 0 (bytes.length : Int) false true st2 =
        some (0, bytes) := by
  rcases write_kstorage_success gid did bytes 0 (bytes.length : Int) st s hg0
      hg4 hs hsort (le_refl 0) (by omega) (by simp) with
    ⟨ns, j, hj, hw, hnssort, hitem⟩
  refine ⟨_, hw, ?_⟩
  have hlt4 : gid.toNat < st.groups.length := by
    unfold KSTRORAGE_MAX_GROUP_NUM at hg4
    omega
  have hgd : ({ st with
      groups := (st.groups.set gid.toNat (some ns)) }).groups.getD gid.toNat
      none = some ns := by
    simp only
    rw [ks_getD_set, if_pos ⟨rfl, hlt4⟩]
  have hbytes : ((bytes.drop (0 : Int).toNat).take
      ((bytes.length : Int)).toNat) = bytes := by
    simp
  have hdid : ns.items[j].did = did := by
    rw [hitem]
  have hdl : ns.items[j].dlen = (bytes.length : Int) := by
    rw [hitem]
    unfold Kstorage.dlen
    rw [hbytes]
  rw [read_kstorage_found gid did 0 (bytes.length : Int) _ ns j hg0 hg4 hgd
    hnssort hj hdid]
  have hpos : 0 < (bytes.length : Int) := by
    have := List.length_pos.mpr hb
    omega
  rw [if_neg (by rw [hdl]; push_neg; exact ⟨le_refl 0, hpos⟩)]
  rw [if_neg (by rw [hdl]; exact not_lt.mpr (le_min (by omega) (by omega)))]
  rw [hitem]
  simp [Kstorage.dlen]

/-- C3 witness: the round trip succeeds at a concrete nonempty input. -/
theorem C3_witness :
    ∃ st2 : KsState,
      write_kstorage 0 7 [104, 105] 0 (([104, 105] : List Nat).length : Int)
        false true true true ksExampleAlloc = some (0, st2) ∧
      read_kstorage 0 7 0 (([104, 105] : List Nat).length : Int) false true
        st2 = some (0, [104, 105]) :=
  C3_round_trip 0 7 [104, 105] ksExampleAlloc ⟨[]⟩
    (by decide) (by decide) (by decide) (by decide) (by decide) (by decide)

/-- C4 counterexample: `group_size` on the in-range but never-allocated
group 0 of the initial state returns the count `0`, not the `-ENOENT` error
the claim requires for unallocated groups. -/
theorem C4_counterexample :
    kstorage_group_size 0 kstorage_init = 0 ∧ (0 : Int) ≠ -ENOENT := by
  decide

/-- C4 (amended): an out-of-range gid makes every operation fail with
`-ENOENT` (or NULL); but an in-range, never-allocated gid is only rejected
by `get`, `read` and `remove`: `group_size` returns the count `0`,
`on_each` returns `0`, `list_ids` returns a zero count, and `write`
crashes on the NULL snapshot instead of returning an error. -/
theorem C4_invalid_group (gid : Int) (cb : Kstorage → Int) (st : KsState)
    (did offset len idslen : Int) :
    ((gid < 0 ∨ KSTRORAGE_MAX_GROUP_NUM ≤ gid) →
      kstorage_group_size gid st = -ENOENT ∧
      get_kstorage gid did st = none ∧
      read_kstorage gid did offset len false true st = some (-ENOENT, []) ∧
      on_each_kstorage_elem gid cb st = -ENOENT ∧
      list_kstorage_ids gid idslen false true st = (-ENOENT, []) ∧
      remove_kstorage gid did true st = (-ENOENT, st) ∧
      write_kstorage gid did [] 0 0 false true true true st =
        some (-ENOENT, st)) ∧
    (0 ≤ gid → gid < KSTRORAGE_MAX_GROUP_NUM →
      st.groups.getD gid.toNat none = none →
      kstorage_group_size gid st = 0 ∧
      get_kstorage gid did st = none ∧
      read_kstorage gid did offset len false true st = some (-ENOENT, []) ∧
      on_each_kstorage_elem gid cb st = 0 ∧
      list_kstorage_ids gid idslen false true st = (0, []) ∧
      remove_kstorage gid did true st = (-ENOENT, st) ∧
      write_kstorage gid did [] 0 0 false true true true st = none) := by
  constructor
  · intro h
    refine ⟨?_, ?_, ?_, ?_, ?_, ?_, ?_⟩
    · unfold kstorage_group_size
      rw [if_pos h]
    · unfold get_kstorage
      rw [if_pos h]
    · unfold read_kstorage
      rw [if_pos h]
    · unfold on_each_kstorage_elem
      rw [if_pos h]
    · unfold list_kstorage_ids
      rw [if_pos h]
    · unfold remove_kstorage
      rw [if_pos h]
    · unfold write_kstorage
      rw [if_pos h]
  · intro h0 h4 hnone
    have hng : ¬ (gid < 0 ∨ KSTRORAGE_MAX_GROUP_NUM ≤ gid) := by
      push_neg
      exact ⟨h0, h4⟩
    refine ⟨?_, ?_, ?_, ?_, ?_, ?_, ?_⟩
    · unfold kstorage_group_size
      rw [if_neg hng, hnone]
    · unfold get_kstorage
      rw [if_neg hng, hnone]
    · unfold read_kstorage
      rw [if_neg hng, hnone]
    · unfold on_each_kstorage_elem
      rw [if_neg hng, hnone]
    · unfold list_kstorage_ids
      rw [if_neg hng, hnone]
    · unfold remove_kstorage
      rw [if_neg hng, hnone]
    · unfold write_kstorage
      rw [if_neg hng, hnone]
      rfl

/-- C4 witness: both branches at concrete inputs. -/
theorem C4_witness :
    kstorage_group_size 5 kstorage_init = -ENOENT ∧
    kstorage_group_size 0 kstorage_init = 0 :=
  ⟨((C4_invalid_group 5 (fun _ => 0) kstorage_init 0 0 0 0).1
      (by decide)).1,
   ((C4_invalid_group 0 (fun _ => 0) kstorage_init 0 0 0 0).2
      (by decide) (by decide) (by decide)).1⟩

/-- C6: an allocation failure while building the new Entry (`item_ok :=
false`) or while cloning the snapshot (`clone_ok := false`) makes `write`
and `remove` return `-ENOMEM` with the state — in particular the published
snapshot of the group — completely unchanged. -/
theorem C6_oom_no_effect (gid did : Int) (data : List Nat) (offset len : Int)
    (u cpok : Bool) (st : KsState) (s : KsGroupSnapshot) :
    (0 ≤ gid → gid < KSTRORAGE_MAX_GROUP_NUM → 0 ≤ len →
      write_kstorage gid did data offset len u false true cpok st =
        some (-ENOMEM, st)) ∧
    (0 ≤ gid → gid < KSTRORAGE_MAX_GROUP_NUM →
      st.groups.getD gid.toNat none = some s →
      0 ≤ offset → 0 ≤ len → offset + len ≤ (data.length : Int) →
      write_kstorage gid did data offset len false true false cpok st =
        some (-ENOMEM, st)) ∧
    (0 ≤ gid → gid < KSTRORAGE_MAX_GROUP_NUM →
      st.groups.getD gid.toNat none = some s → 0 ≤ ks_bsearch s did →
      remove_kstorage gid did false st = (-ENOMEM, st)) := by
  refine ⟨?_, ?_, ?_⟩
  · intro h0 h4 hlen
    unfold write_kstorage
    rw [if_neg (by push_neg; exact ⟨h0, h4⟩)]
    have hmk : ks_make_item gid did data offset len u false cpok =
        some (Except.error (-ENOMEM)) := by
      unfold ks_make_item
      rw [if_neg (by omega), if_pos (by decide : (!false) = true)]
    rw [hmk]
  · intro h0 h4 hsome hoff hlen hrange
    unfold write_kstorage
    rw [if_neg (by push_neg; exact ⟨h0, h4⟩),
      ks_make_item_kernel gid did data offset len cpok hoff hlen hrange,
      hsome]
    dsimp only
    by_cases hidx : 0 ≤ ks_bsearch s did
    · rw [if_pos hidx, if_pos (by decide : (!false) = true)]
    · rw [if_neg hidx, if_pos (by decide : (!false) = true)]
  · intro h0 h4 hsome hidx
    unfold remove_kstorage
    rw [if_neg (by push_neg; exact ⟨h0, h4⟩), hsome]
    dsimp only
    rw [if_neg (not_lt.mpr hidx), if_pos (by decide : (!false) = true)]

/-- C6 witness: the three failure modes at concrete inputs. -/
theorem C6_witness :
    write_kstorage 0 5 [] 0 0 false false true true kstorage_init =
      some (-ENOMEM, kstorage_init) ∧
    write_kstorage 0 9 [1] 0 1 false true false true ksExampleAbcdef =
      some (-ENOMEM, ksExampleAbcdef) ∧
    remove_kstorage 0 7 false ksExampleAbcdef =
      (-ENOMEM, ksExampleAbcdef) :=
  ⟨(C6_oom_no_effect 0 5 [] 0 0 false true kstorage_init ⟨[]⟩).1
      (by decide) (by decide) (by decide),
   (C6_oom_no_effect 0 9 [1] 0 1 false true ksExampleAbcdef
      ⟨[⟨0, 7, [97, 98, 99, 100, 101, 102]⟩]⟩).2.1
      (by decide) (by decide) (by decide) (by decide) (by decide)
      (by decide),
   (C6_oom_no_effect 0 7 [] 0 0 false true ksExampleAbcdef
      ⟨[⟨0, 7, [97, 98, 99, 100, 101, 102]⟩]⟩).2.2
      (by decide) (by decide) (by decide) (by decide)⟩

/-- C10: writing with valid arguments to an in-range group is safe exactly
under the allocation precondition — with a NULL (never-allocated) snapshot
the insert branch dereferences the NULL pointer (modelled as `none`), while
with any allocated snapshot the call always returns a result. -/
theorem C10_write_requires_alloc (gid did : Int) (data : List Nat)
    (offset len : Int) (iok cok cpok : Bool) (st : KsState)
    (s : KsGroupSnapshot)
    (hg0 : 0 ≤ gid) (hg4 : gid < KSTRORAGE_MAX_GROUP_NUM)
    (hoff : 0 ≤ offset) (hlen : 0 ≤ len)
    (hrange : offset + len ≤ (data.length : Int)) :
    (st.groups.getD gid.toNat none = none →
      write_kstorage gid did data offset len false true true true st =
        none) ∧
    (st.groups.getD gid.toNat none = some s →
      (write_kstorage gid did data offset len false iok cok cpok
        st).isSome = true) := by
  constructor
  · intro hnone
    unfold write_kstorage
    rw [if_neg (by push_neg; exact ⟨hg0, hg4⟩),
      ks_make_item_kernel gid did data offset len true hoff hlen hrange,
      hnone]
  · intro hsome
    unfold write_kstorage
    rw [if_neg (by push_neg; exact ⟨hg0, hg4⟩)]
    cases iok with
    | false =>
      have hmk : ks_make_item gid did data offset len false false cpok =
          some (Except.error (-ENOMEM)) := by
        unfold ks_make_item
        rw [if_neg (by omega), if_pos (by decide : (!false) = true)]
      rw [hmk]
      rfl
    | true =>
      rw [ks_make_item_kernel gid did data offset len cpok hoff hlen hrange,
        hsome]
      dsimp only
      by_cases hidx : 0 ≤ ks_bsearch s did
      · rw [if_pos hidx]
        cases cok <;> rfl
      · rw [if_neg hidx]
        cases cok <;> rfl

/-- C5: allocation is monotonic and irreversible: once four groups are
allocated (counter at 3 or beyond) the call fails with the capacity error
`-1`, a failed attempt never changes the group table (consumes no id), the
observable allocation counter never decreases across any call, and the ids
issued along any call sequence are strictly increasing — hence no id is
ever issued twice. -/
theorem C5_alloc_monotonic (ok : Bool) (st : KsState) (ops : List KsOp) :
    (3 ≤ st.used_max_group →
      try_alloc_kstroage_group ok st =
        (-1, { st with used_max_group := st.used_max_group + 1 })) ∧
    ((try_alloc_kstroage_group ok st).1 < 0 →
      (try_alloc_kstroage_group ok st).2.groups = st.groups) ∧
    st.used_max_group ≤ (try_alloc_kstroage_group ok st).2.used_max_group ∧
    List.Pairwise (· < ·) (ksIssued ops st) ∧
    (ksIssued ops st).Nodup := by
  refine ⟨?_, ?_, try_alloc_used_mono ok st, ksIssued_sorted ops st, ?_⟩
  · intro h
    unfold try_alloc_kstroage_group
    rw [if_pos (Or.inr (by unfold KSTRORAGE_MAX_GROUP_NUM; omega))]
  · intro h
    by_cases h1 : st.used_max_group + 1 < 0 ∨
        KSTRORAGE_MAX_GROUP_NUM ≤ st.used_max_group + 1
    · unfold try_alloc_kstroage_group
      rw [if_pos h1]
    · unfold try_alloc_kstroage_group at h ⊢
      rw [if_neg h1] at h ⊢
      by_cases h2 : (!ok) = true
      · rw [if_pos h2]
      · rw [if_neg h2] at h
        dsimp only at h
        unfold KSTRORAGE_MAX_GROUP_NUM at h1
        exact absurd h (by push_neg at h1; omega)
  · exact List.Pairwise.imp (fun h => ne_of_lt h) (ksIssued_sorted ops st)

/-- C5 witness: the fifth allocation fails with `-1` while bumping the
counter, and a concrete run (success, allocation failure, success) issues
strictly increasing ids. -/
theorem C5_witness :
    try_alloc_kstroage_group true ⟨3, [none, none, none, none]⟩ =
      (-1, ⟨4, [none, none, none, none]⟩) ∧
    List.Pairwise (· < ·)
      (ksIssued [KsOp.alloc true, KsOp.alloc false, KsOp.alloc true]
        kstorage_init) :=
  ⟨(C5_alloc_monotonic true ⟨3, [none, none, none, none]⟩ []).1 (by decide),
   (C5_alloc_monotonic true kstorage_init
      [KsOp.alloc true, KsOp.alloc false, KsOp.alloc true]).2.2.2.1⟩

/-- State holding records 1, 3, 5 in group 0 (written in order 5, 1, 3). -/
def ksExampleThree : KsState :=
  ⟨0, [some ⟨[⟨0, 1, [2]⟩, ⟨0, 3, [3]⟩, ⟨0, 5, [1]⟩]⟩, none, none, none]⟩

/-- C7: in every state reachable by any call sequence from the initial
state, every published snapshot keeps its record ids strictly increasing
(hence duplicate-free), and `list_ids` returns the count
`min(idslen, size)` together with a strictly ascending id list, regardless
of insertion order. -/
theorem C7_sorted_snapshots (ops : List KsOp) (st : KsState)
    (gid idslen : Int) (s : KsGroupSnapshot)
    (hrun : ksRun ops kstorage_init = some st)
    (hg0 : 0 ≤ gid) (hg4 : gid < KSTRORAGE_MAX_GROUP_NUM)
    (hs : st.groups.getD gid.toNat none = some s) :
    SortedDids s.items ∧
    (list_kstorage_ids gid idslen false true st).1 = min idslen s.size ∧
    List.Pairwise (· < ·) (list_kstorage_ids gid idslen false true st).2 := by
  have hinv := ksInv_run ops kstorage_init st ksInv_init hrun
  have hsort := hinv.2 gid.toNat s hs
  have hlist : list_kstorage_ids gid idslen false true st =
      (min idslen s.size,
        (s.items.map Kstorage.did).take (min idslen s.size).toNat) := by
    unfold list_kstorage_ids
    rw [if_neg (by push_neg; exact ⟨hg0, hg4⟩), hs]
    dsimp only
    rw [if_neg (by simp)]
  refine ⟨hsort, ?_, ?_⟩
  · rw [hlist]
  · rw [hlist]
    apply List.Pairwise.sublist (List.take_sublist _ _)
    rw [List.pairwise_map]
    exact hsort

/-- C7 witness: writing ids 5, 1, 3 into group 0 in that order yields the
sorted snapshot `[1, 3, 5]` and `list_ids` reports them ascending. -/
theorem C7_witness :
    SortedDids (KsGroupSnapshot.mk
      [⟨0, 1, [2]⟩, ⟨0, 3, [3]⟩, ⟨0, 5, [1]⟩]).items ∧
    (list_kstorage_ids 0 10 false true ksExampleThree).1 =
      min 10 (KsGroupSnapshot.mk
        [⟨0, 1, [2]⟩, ⟨0, 3, [3]⟩, ⟨0, 5, [1]⟩]).size ∧
    List.Pairwise (· < ·)
      (list_kstorage_ids 0 10 false true ksExampleThree).2 :=
  C7_sorted_snapshots
    [KsOp.alloc true,
     KsOp.write 0 5 [1] 0 1 false true true true,
     KsOp.write 0 1 [2] 0 1 false true true true,
     KsOp.write 0 3 [3] 0 1 false true true true]
    ksExampleThree 0 10 ⟨[⟨0, 1, [2]⟩, ⟨0, 3, [3]⟩, ⟨0, 5, [1]⟩]⟩
    (by decide) (by decide) (by decide) (by decide)

/-- C10 witness: the crash on a never-allocated in-range group and a normal
result on an allocated one. -/
theorem C10_witness :
    write_kstorage 1 7 [1] 0 1 false true true true kstorage_init = none ∧
    (write_kstorage 0 7 [1] 0 1 false true true true
      ksExampleAlloc).isSome = true :=
  ⟨(C10_write_requires_alloc 1 7 [1] 0 1 true true true kstorage_init ⟨[]⟩
      (by decide) (by decide) (by decide) (by decide) (by decide)).1
      (by decide),
   (C10_write_requires_alloc 0 7 [1] 0 1 true true true ksExampleAlloc ⟨[]⟩
      (by decide) (by decide) (by decide) (by decide) (by decide)).2
      (by decide)⟩

example : ks_bsearch ⟨[⟨0, 1, []⟩, ⟨0, 3, []⟩, ⟨0, 5, []⟩]⟩ 4 = -3 := by decide

example : ks_bsearch ⟨[]⟩ 7 = -1 := by decide

example :
    write_kstorage 0 7 [97, 98, 99, 100, 101, 102] 0 6 false true true true
      ⟨0, [some ⟨[]⟩, none, none, none]⟩ =
    some (0, ⟨0, [some ⟨[⟨0, 7, [97, 98, 99, 100, 101, 102]⟩]⟩,
                  none, none, none]⟩) := by decide

example :
    read_kstorage 0 7 6 1 false true
      ⟨0, [some ⟨[⟨0, 7, [97, 98, 99, 100, 101, 102]⟩]⟩, none, none, none]⟩ =
    some (-EINVAL, []) := by decide

example :
    read_kstorage 0 7 3 10 false true
      ⟨0, [some ⟨[⟨0, 7, [97, 98, 99, 100, 101, 102]⟩]⟩, none, none, none]⟩ =
    some (0, [100, 101, 102]) := by decide
